import Mathlib

/-!
Verification of the memoization cache subsystem in `panel/io/cache.py`
(structural hasher, cache store eviction, memoization facade).

The Python module is shallowly embedded below.  Conventions:

* Python object identities (the results of `id(...)`) are natural numbers.
* Python byte strings are `List Nat` (one entry per byte, each < 256 on
  real inputs; the encoders below only produce values < 256).
* `hashlib.md5` is modelled symbolically: a digest is the sequence of
  bytes fed through `update`, wrapped in distinguished begin/end tokens
  (`md5H`).  Real MD5 is a fixed deterministic function of exactly that
  byte sequence, so every *equality* of digests proved here holds for the
  real code; no theorem below relies on an *inequality* between two `md5H`
  values (that would need collision-freeness), only on inequalities
  between raw byte strings, which are genuine.
* Mutable containers (Python lists) live in an explicit heap mapping an
  object identity to the list of element values, so that self-referential
  (cyclic) containers are expressible.  Tuples are modelled through the
  same heap for uniformity.  For a user-defined object (`objV`) the heap
  cell holds the components of the tuple returned by `obj.__reduce__()`,
  and the `reduceOk` flag records whether `__reduce__()` raises.
* Recursion depth is made explicit by a fuel parameter, playing the role
  of Python's recursion limit; `recursionError` is the analogue of
  `RecursionError`.  The totality theorem below shows a computable fuel
  bound is always sufficient, i.e. the code's recursion is bounded.
* The module `panel/io/state.py` is not part of the sources; everything
  taken from it is modelled from the spec and marked as such.
-/

/-- UTF-8 encoding of a character (`str.encode()` on one code point). -/
def charUtf8 (c : Char) : List Nat :=
  let n := c.toNat
  if n < 128 then [n]
  else if n < 2048 then [192 + n / 64, 128 + n % 64]
  else if n < 65536 then [224 + n / 4096, 128 + (n / 64) % 64, 128 + n % 64]
  else [240 + n / 262144, 128 + (n / 4096) % 64, 128 + (n / 64) % 64, 128 + n % 64]

/-- `s.encode()`: UTF-8 bytes of a Python `str`. -/
def utf8Bytes (s : String) : List Nat := (s.data.map charUtf8).flatten

/-- Helper for `bit_length`: fuelled binary recursion (the fuel `n` itself is
always enough, since halving reaches zero in at most `n` steps). -/
def bit_length_aux : Nat → Nat → Nat
  | 0, _ => 0
  | fuel+1, n => if n = 0 then 0 else bit_length_aux fuel (n / 2) + 1

/-- Python `int.bit_length()` of the absolute value of an integer. -/
def bit_length (n : Nat) : Nat := bit_length_aux n n

/-- Little-endian byte expansion: `m.to_bytes(k, "little")`. -/
def le_bytes : Nat → Nat → List Nat
  | 0, _ => []
  | k+1, m => m % 256 :: le_bytes k (m / 256)

/-- `_int_to_bytes(i)` (cache.py lines 62-64):
`num_bytes = (i.bit_length() + 8) // 8` and
`i.to_bytes(num_bytes, "little", signed=True)`; the signed little-endian
encoding of `i` in `num_bytes` bytes is the little-endian expansion of
`i mod 2^(8*num_bytes)` (two's complement). -/
def _int_to_bytes (i : Int) : List Nat :=
  let nb := (bit_length i.natAbs + 8) / 8
  le_bytes nb (i.emod ((2 ^ (8 * nb) : Nat) : Int)).toNat

/-- Tokens of the symbolic byte-string model.  `byteT` is an ordinary byte;
`startT`/`endT` bracket the `update` stream that an `hashlib.md5` digest
was computed from (see the header comment). -/
inductive HTok where
  | byteT (b : Nat)
  | startT
  | endT
  deriving DecidableEq, Repr

/-- A (possibly digest-containing) byte string. -/
abbrev HBytes := List HTok

/-- A concrete Python `bytes` value. -/
def rawH (bs : List Nat) : HBytes := bs.map HTok.byteT

/-- `hashlib.new("md5")` fed the given updates, then `.digest()`.  Feeding
updates `u1, u2, ...` is the same as feeding their concatenation, which is
what the token stream records. -/
def md5H (updates : List HBytes) : HBytes := HTok.startT :: updates.flatten ++ [HTok.endT]

/-- `_CYCLE_PLACEHOLDER` (cache.py line 25). -/
def _CYCLE_PLACEHOLDER : HBytes :=
  rawH (utf8Bytes "panel-93KZ39Q-floatingdangeroushomechose-CYCLE")

/-- Python values, as far as the cache module's dispatch needs them.
Every value carries its object identity `oid` (= `id(obj)`).  Container
contents (and, for `objV`, the components of the object's
`__reduce__()` tuple) live in the `Heap` under the object's `oid`;
`reduceOk = false` means `__reduce__()` raises.  Unmodelled value kinds
(floats, bytearrays, functools.partial, Mock, StringIO/BytesIO, numpy,
pandas, builtin functions, modules, ...) are outside this embedding; no
claim depends on them. -/
inductive PyVal where
  | intV (oid : Nat) (v : Int)
  | boolV (oid : Nat) (b : Bool)
  | strV (oid : Nat) (s : String)
  | noneV (oid : Nat)
  | bytesV (oid : Nat) (bs : List Nat)
  | tupleV (oid : Nat)
  | listV (oid : Nat)
  | objV (oid : Nat) (modName : String) (qualName : String) (reduceOk : Bool)
  deriving DecidableEq, Repr

/-- Contents of mutable/compound objects, keyed by object identity. -/
abbrev Heap := List (Nat × List PyVal)

/-- `id(obj)`. -/
def PyVal.oidOf : PyVal → Nat
  | .intV i _ => i
  | .boolV i _ => i
  | .strV i _ => i
  | .noneV i => i
  | .bytesV i _ => i
  | .tupleV i => i
  | .listV i => i
  | .objV i _ _ _ => i

/-- `_get_fqn(obj)` (cache.py lines 55-60): `module.qualname` of `type(obj)`. -/
def _get_fqn : PyVal → String
  | .intV _ _ => "builtins.int"
  | .boolV _ _ => "builtins.bool"
  | .strV _ _ => "builtins.str"
  | .noneV _ => "builtins.NoneType"
  | .bytesV _ _ => "builtins.bytes"
  | .tupleV _ => "builtins.tuple"
  | .listV _ => "builtins.list"
  | .objV _ m q _ => m ++ "." ++ q

/-- `type(obj).__name__` (used for the container tag and error messages;
for the modelled types `__name__` and `__qualname__` coincide). -/
def type_name : PyVal → String
  | .intV _ _ => "int"
  | .boolV _ _ => "bool"
  | .strV _ _ => "str"
  | .noneV _ => "NoneType"
  | .bytesV _ _ => "bytes"
  | .tupleV _ => "tuple"
  | .listV _ => "list"
  | .objV _ _ q _ => q

/-- The string keys of `_hash_funcs` (cache.py lines 126-133) together with
the `_FFI_TYPE_NAMES` keys added at lines 139-140.  Values of these types
(numpy, pandas, ...) are outside the embedding. -/
def specialFqnNames : List String :=
  ["numpy.ndarray", "pandas.core.series.Series", "pandas.core.frame.DataFrame",
   "builtins.mappingproxy", "builtins.dict_items", "builtins.getset_descriptor",
   "numpy.ufunc", "_cffi_backend.FFI", "builtins.CompiledFFI"]

/-- The `_Stack` class (cache.py lines 41-53).  It wraps an `OrderedDict`
keyed by object identity; we model the key order.  `push` is only ever
called on an identity that is not yet present, so appending is faithful.
`pop` (Python `popitem()`, removing the most recently inserted entry) is
defined by the class but never called anywhere in the module. -/
structure _Stack where
  stackIds : List Nat
  deriving DecidableEq, Repr

def _Stack.push (s : _Stack) (i : Nat) : _Stack := ⟨s.stackIds ++ [i]⟩

def _Stack.pop (s : _Stack) : _Stack := ⟨s.stackIds.dropLast⟩

def _Stack.mem (s : _Stack) (i : Nat) : Bool := s.stackIds.contains i

/-- Modelled from the spec: `state._current_stack` lives in
`panel/io/state.py`, which is not among the sources; per the spec it is a
process-wide, weak-keyed *per-thread* registry handing out one persistent
`_Stack` per thread.  `HState` is the state of one thread's hashing: its
registry stack plus an allocator for identities of objects freshly created
during hashing (the `f-string` type tags).  The state is threaded through
the hasher and — crucially — survives between top-level calls, exactly as
the per-thread registry does. -/
structure HState where
  stk : _Stack
  nextId : Nat
  deriving DecidableEq, Repr

/-- Errors of the embedded code. -/
inductive PyErr where
  | nameError (n : String)
  | userHashError (fqn : String) (etype : String) (emsg : String)
  | reduceError (tname : String)
  | recursionError
  | outsideModel
  deriving DecidableEq, Repr

instance {E A : Type} [DecidableEq E] [DecidableEq A] : DecidableEq (Except E A) := fun a b =>
  match a, b with
  | .ok x, .ok y =>
    match decEq x y with
    | .isTrue h => .isTrue (by rw [h])
    | .isFalse h => .isFalse (by intro hc; cases hc; exact h rfl)
  | .error x, .error y =>
    match decEq x y with
    | .isTrue h => .isTrue (by rw [h])
    | .isFalse h => .isFalse (by intro hc; cases hc; exact h rfl)
  | .ok _, .error _ => .isFalse (by intro hc; cases hc)
  | .error _, .ok _ => .isFalse (by intro hc; cases hc)

/-- A user-supplied hash override for one fully-qualified type name: it
either returns a value (to be hashed in turn, line 161) or raises, which we
record as an error carrying the exception's type name and message. -/
abbrev HashFunc := PyVal → Except (String × String) PyVal

/-- The `hash_funcs` mapping of `_generate_hash` (keys are fully qualified
type names, compared by `fqn_type in hash_funcs`). -/
abbrev HashFuncs := List (String × HashFunc)

/-- Work items of the hasher: a single `_generate_hash(obj)` call, or the
`for item in ...: h.update(_generate_hash(item))` loops of
`_container_hash` (line 75-76) and of the `__reduce__` fallback
(lines 178-179). -/
inductive HashTask where
  | one (v : PyVal)
  | many (vs : List PyVal)
  deriving DecidableEq, Repr

/-- The recursive core of `_generate_hash(obj, hash_funcs={})`
(cache.py lines 143-181), with `_container_hash` (lines 72-77) inlined at
the `(list, tuple, dict)` dispatch row and the `__reduce__` fallback
(lines 172-180) inlined after the dispatch table.  Faithful details:

* lines 145-148: the current thread's persistent stack is consulted by
  object identity; on a hit the fixed `_CYCLE_PLACEHOLDER` is returned;
  otherwise the identity is pushed — and never popped again anywhere.
* lines 150-161: a user override keyed by the fully-qualified type name is
  tried first; an exception from it is re-raised as a `ValueError` naming
  the type and the underlying error; on success the override's *output* is
  hashed by a recursive call that passes no `hash_funcs` (line 161 calls
  `_generate_hash(output)` with the default `{}`).
* dispatch rows in table order (lines 114-137): `isinstance(obj, int)` is
  checked first and is true for `bool` as well (Python's `bool` is a
  subclass of `int`), so booleans take the `int` row and the dedicated
  `bool` row is dead; `None` hashes to `b"0"`; `bytes` hash to themselves;
  `list`/`tuple` go to `_container_hash`.  Rows for floats, bytearrays,
  `functools` partial application objects, `Mock`, IO buffers, the
  string-keyed numpy/pandas rows and the `isbuiltin`/`ismodule` predicate
  rows concern value kinds outside this embedding (`outsideModel`).
* `_container_hash` feeds the digest of a *freshly created* tag string
  `f"__tuple"` / `f"__list"` (which therefore gets its own fresh identity
  from the allocator and is itself pushed), then each item, each via a
  plain `_generate_hash(item)` call (default `hash_funcs`, hence the `[]`
  in the recursive calls; `.many` is only ever invoked with `[]`).
* every Python object has `__reduce__`, so the final identity fallback at
  line 181 is unreachable; a `__reduce__()` that raises becomes the
  `ValueError` of line 177, otherwise each component of the reduce tuple
  is hashed and the digests combined (lines 173-180). -/
def genHashAux (heap : Heap) : Nat → HashFuncs → HState → HashTask →
    Except PyErr (List HBytes × HState)
  | 0, _, _, _ => .error .recursionError
  | _+1, _, st, .many [] => .ok ([], st)
  | g+1, hf, st, .many (v :: rest) =>
    match genHashAux heap g hf st (.one v) with
    | .error e => .error e
    | .ok (h1, st1) =>
      match genHashAux heap g hf st1 (.many rest) with
      | .error e => .error e
      | .ok (hs, st2) => .ok (h1 ++ hs, st2)
  | g+1, hf, st, .one obj =>
    if st.stk.mem obj.oidOf then .ok ([_CYCLE_PLACEHOLDER], st)
    else
      let st1 : HState := ⟨st.stk.push obj.oidOf, st.nextId⟩
      match hf.lookup (_get_fqn obj) with
      | some hfun =>
        match hfun obj with
        | .error e => .error (.userHashError (_get_fqn obj) e.1 e.2)
        | .ok out => genHashAux heap g [] st1 (.one out)
      | none =>
        match obj with
        | .intV _ v => .ok ([rawH (_int_to_bytes v)], st1)
        | .boolV _ b => .ok ([rawH (_int_to_bytes (if b then 1 else 0))], st1)
        | .strV _ s => .ok ([rawH (utf8Bytes s)], st1)
        | .noneV _ => .ok ([rawH [48]], st1)
        | .bytesV _ bs => .ok ([rawH bs], st1)
        | .tupleV i =>
          match heap.lookup i with
          | none => .error .outsideModel
          | some items =>
            let tagv : PyVal := .strV st1.nextId "__tuple"
            let st2 : HState := ⟨st1.stk, st1.nextId + 1⟩
            match genHashAux heap g [] st2 (.one tagv) with
            | .error e => .error e
            | .ok (th, st3) =>
              match genHashAux heap g [] st3 (.many items) with
              | .error e => .error e
              | .ok (ihs, st4) => .ok ([md5H (th ++ ihs)], st4)
        | .listV i =>
          match heap.lookup i with
          | none => .error .outsideModel
          | some items =>
            let tagv : PyVal := .strV st1.nextId "__list"
            let st2 : HState := ⟨st1.stk, st1.nextId + 1⟩
            match genHashAux heap g [] st2 (.one tagv) with
            | .error e => .error e
            | .ok (th, st3) =>
              match genHashAux heap g [] st3 (.many items) with
              | .error e => .error e
              | .ok (ihs, st4) => .ok ([md5H (th ++ ihs)], st4)
        | .objV i m q rOk =>
          if specialFqnNames.contains (m ++ "." ++ q) then .error .outsideModel
          else if rOk then
            match heap.lookup i with
            | none => .error .outsideModel
            | some items =>
              match genHashAux heap g [] st1 (.many items) with
              | .error e => .error e
              | .ok (ihs, st2) => .ok ([md5H ihs], st2)
          else .error (.reduceError q)

/-- `_generate_hash(obj, hash_funcs)`: one top-level call of the hasher on a
single value, with the thread's hashing state passed in and returned. -/
def _generate_hash (heap : Heap) (fuel : Nat) (hash_funcs : HashFuncs)
    (st : HState) (obj : PyVal) : Except PyErr (HBytes × HState) :=
  match genHashAux heap fuel hash_funcs st (.one obj) with
  | .error e => .error e
  | .ok ([b], st2) => .ok (b, st2)
  | .ok (_, _) => .error .outsideModel

/-- The argument collections `_key` is applied to by `compute_hash`
(line 237): the tuple of positional arguments and the dict of keyword
arguments of the call. -/
inductive PyTop where
  | tupleT (items : List PyVal)
  | dictT (kvs : List (String × PyVal))
  deriving DecidableEq, Repr

/-- `_is_native(obj)` (cache.py lines 66-67): `isinstance(obj, _NATIVE_TYPES)`
with `_NATIVE_TYPES = (bytes, str, float, int, bool, bytearray, NoneType)`.
All modelled scalar values are native; containers and objects are not. -/
def _is_native (v : PyVal) : Bool :=
  match v with
  | .intV _ _ => true
  | .boolV _ _ => true
  | .strV _ _ => true
  | .noneV _ => true
  | .bytesV _ _ => true
  | _ => false

/-- `_is_native_tuple(obj)` (cache.py lines 69-70):
`isinstance(obj, tuple) and all(_is_native_tuple(v) for v in obj)`.
Note that the element check requires each element to *itself* be a native
tuple (there is no `_is_native(v) or` disjunct), so only tuples of tuples
of ... of empty tuples qualify.  Tuples are acyclic in Python, so a fuel
of `heap.length + 1` covers any chain of distinct heap identities. -/
def _is_native_tuple_fuel (heap : Heap) : Nat → PyVal → Bool
  | 0, _ => false
  | f+1, v =>
    match v with
    | .tupleV i =>
      match heap.lookup i with
      | some items => items.all (_is_native_tuple_fuel heap f)
      | none => false
    | _ => false

def _is_native_tuple (heap : Heap) (v : PyVal) : Bool :=
  _is_native_tuple_fuel heap (heap.length + 1) v

/-- Results of `_key` as far as the two call sites can produce them:
either the argument collection itself (returned when it passes the native
checks) or the `_INDETERMINATE` sentinel.  (`None`, the `('__list', ...)`
tuple and the `id(obj)` branches of `_key` cannot trigger for the tuple
and dict `compute_hash` passes in.) -/
inductive KeyVal where
  | keyNative (t : PyTop)
  | indeterminate
  deriving DecidableEq, Repr

def KeyVal.isIndet : KeyVal → Bool
  | .indeterminate => true
  | _ => false

/-- `_key(obj)` (cache.py lines 183-199) on the argument collections of
`compute_hash`.  For the args tuple: it is not `None`; `_is_native` is
false for a tuple; `_is_native_tuple` requires every element to be a
native tuple; a tuple is not a `list`, has fqn `builtins.tuple` and is not
a builtin/routine/code object, so otherwise `_INDETERMINATE` is returned.
For the kwargs dict every branch fails (a dict is none of the probed
kinds), so the result is always `_INDETERMINATE`. -/
def _key (heap : Heap) (t : PyTop) : KeyVal :=
  match t with
  | .tupleT items =>
    if items.all (_is_native_tuple heap) then .keyNative (.tupleT items)
    else .indeterminate
  | .dictT _ => .indeterminate

/-- The memo key `(func, _key(args), _key(kwargs))` of cache.py line 237.
The callable is identified by `id`; dict/tuple keys compare structurally. -/
abbrev MemoKey := Nat × KeyVal × KeyVal

/-- The hexdigest of the `hashlib.md5` hasher of `compute_hash`, identified
by its update sequence (hex rendering of equal digests is equal). -/
abbrev HexDigest := List HBytes

/-- `_HASH_MAP` (cache.py line 33), the process-wide hash-value memo. -/
abbrev HashMemo := List (MemoKey × HexDigest)

/-- The names bound at module level in `panel/io/cache.py`: the imports
(lines 4-19) and every top-level assignment, class, function and the
leaked `for` variable `name` of line 139. -/
def cacheModuleGlobals : List String :=
  ["collections", "functools", "hashlib", "inspect", "io", "pickle",
   "threading", "time", "unittest", "weakref", "param", "state",
   "_CYCLE_PLACEHOLDER", "_NATIVE_TYPES", "_FFI_TYPE_NAMES", "_HASH_MAP",
   "_HASH_STACKS", "_INDETERMINATE", "_TIME_FN", "_Stack", "_get_fqn",
   "_int_to_bytes", "_is_native", "_is_native_tuple", "_container_hash",
   "_partial_hash", "_pandas_hash", "_numpy_hash", "_io_hash", "_hash_funcs",
   "name", "_generate_hash", "_key", "_cleanup_cache", "compute_hash",
   "cache", "clear_cache"]

/-- The Python builtins referenced anywhere in the module (the last scope
searched during name resolution). -/
def pyBuiltins : List String :=
  ["len", "list", "sorted", "isinstance", "all", "id", "hasattr", "type",
   "getattr", "dict", "bytes", "str", "float", "int", "bool", "bytearray",
   "ValueError", "BaseException", "AttributeError", "TypeError"]

/-- Python name resolution for a name occurring in a function body: the
function's local variables (every name assigned anywhere in the body or
bound as a parameter), then the module globals, then the builtins; if none
binds the name, evaluating it raises `NameError`. -/
def resolveFree (localNames : List String) (n : String) : Except PyErr Unit :=
  if n ∈ localNames ∨ n ∈ cacheModuleGlobals ∨ n ∈ pyBuiltins then .ok ()
  else .error (.nameError n)

/-- The compile-time local names of `compute_hash` (parameters plus
assigned variables; lines 224-248).  `hash_args`, `hash_kwargs` and
`hash_funcs` are *not* among them — they are locals of `wrapped_func`,
a different function. -/
def computeHashLocals : List String :=
  ["func", "args", "kwargs", "key", "hasher", "hash_value"]

/-- The compile-time local names of `_cleanup_cache` (parameters plus the
`key` assigned in the loop; lines 201-218).  `func_cache` and `policy` are
*not* among them. -/
def cleanupCacheLocals : List String :=
  ["cache", "max_items", "ttl", "time", "key", "k", "ts"]

/-- `compute_hash(func, *args, **kwargs)` (cache.py lines 224-248).
Faithful transcription:

* line 237 builds `key = (func, _key(args), _key(kwargs))`;
* line 238: if the `_INDETERMINATE` sentinel is in none of the three slots
  (the callable is never the sentinel) and the key is in `_HASH_MAP`, the
  memoized digest is returned;
* lines 241-244: `if args:` evaluates
  `hasher.update(_generate_hash(hash_args, hash_funcs))`; the names
  `hash_args` and `hash_kwargs` (and `hash_funcs`) are not bound in
  `compute_hash`'s scope — they are not parameters, are assigned nowhere
  in its body, and are neither module globals nor builtins — so the very
  first argument evaluation raises `NameError` (`hash_args` is resolved
  before `hash_funcs`, and the `args` branch before the `kwargs` branch).
  The `.ok` arm of the resolution is unreachable (`outsideModel` is a
  placeholder no theorem depends on);
* with both `args` and `kwargs` empty neither branch runs and the digest
  of the empty update sequence is produced (lines 245-248), memoized only
  when the key is sentinel-free. -/
def compute_hash (heap : Heap) (hashMap : HashMemo) (func : Nat)
    (args : List PyVal) (kwargs : List (String × PyVal)) :
    Except PyErr (HexDigest × HashMemo) :=
  let key : MemoKey := (func, _key heap (.tupleT args), _key heap (.dictT kwargs))
  let indetFree : Bool := !key.2.1.isIndet && !key.2.2.isIndet
  let proceed : Except PyErr (HexDigest × HashMemo) :=
    if args.isEmpty = false then
      match resolveFree computeHashLocals "hash_args" with
      | .error e => .error e
      | .ok _ => .error .outsideModel
    else if kwargs.isEmpty = false then
      match resolveFree computeHashLocals "hash_kwargs" with
      | .error e => .error e
      | .ok _ => .error .outsideModel
    else
      let hash_value : HexDigest := []
      if indetFree then .ok (hash_value, hashMap ++ [(key, hash_value)])
      else .ok (hash_value, hashMap)
  if indetFree then
    match hashMap.lookup key with
    | some hv => .ok (hv, hashMap)
    | none => proceed
  else proceed

/-- `_cleanup_cache(cache, max_items, ttl, time)` (cache.py lines 201-218).
Its first statement is `while len(func_cache) >= max_items:`; `func_cache`
is not a parameter (those are `cache`, `max_items`, `ttl`, `time`), is
assigned nowhere in the body, and is neither a module global nor a
builtin, so evaluating the loop condition raises `NameError` at once —
before any entry could be evicted, before the (equally unbound) `policy`
is read, and before the TTL sweep of lines 215-218 is reached.  The
eviction and sweep statements are therefore unreachable; the `.ok` arm of
the resolution (a placeholder no theorem depends on) marks this.  The
first parameter receives, at the only call site (line 315), the module's
`cache` *decorator function* rather than a store; it is irrelevant here
because the body never reads it. -/
def _cleanup_cache (cacheArg : Unit) (max_items : Nat) (ttl : Option Nat)
    (time : Nat) : Except PyErr Unit :=
  match resolveFree cleanupCacheLocals "func_cache" with
  | .error e => .error e
  | .ok _ => .error .outsideModel

/-- The object returned by a successful application of the `cache`
decorator to a function: the closure `wrapped_func` together with the
configuration it captured. -/
structure WrappedFunc where
  func : Nat
  hash_funcs : HashFuncs
  max_items : Option Nat
  policy : String
  ttl : Option Nat

/-- Result of a wrap-time application of `cache`: either the wrapped
callable, or (when `func` is omitted) the factory lambda of lines 279-284
— which captures `hash_funcs`, `max_items` and `ttl` but *not* `policy`
(the lambda forwards only those three keyword arguments). -/
inductive CacheResult where
  | wrapped (w : WrappedFunc)
  | factory (hash_funcs : HashFuncs) (max_items : Option Nat) (ttl : Option Nat)

/-- The wrap-time behaviour of
`cache(func=None, hash_funcs=None, max_items=None, policy='LRU', ttl=None)`
(cache.py lines 251-327).  The body normalizes `hash_funcs` (line 277),
returns the factory lambda when `func is None` (lines 278-284), and
otherwise creates a lock, defines `wrapped_func`, copies `func.__dict__`
(inside a `try`/`except AttributeError: pass`) and returns the wrapper.
No statement on this path examines `policy`: there is no validation of
the eviction-policy string anywhere at wrap time, so wrapping never
raises, whatever the policy string is. -/
def cache (func : Option Nat) (hash_funcs : Option HashFuncs)
    (max_items : Option Nat) (policy : String) (ttl : Option Nat) : CacheResult :=
  let hf := hash_funcs.getD []
  match func with
  | none => .factory hf max_items ttl
  | some f => .wrapped ⟨f, hf, max_items, policy, ttl⟩

/-- Applying the factory lambda of lines 279-284 to a function `f`: it
calls `cache(func=f, hash_funcs=..., max_items=..., ttl=...)` — with no
`policy` argument, so the recursive call uses the default `'LRU'`,
silently discarding whatever policy the user configured. -/
def factory_apply (hash_funcs : HashFuncs) (max_items : Option Nat)
    (ttl : Option Nat) (f : Nat) : CacheResult :=
  cache (some f) (some hash_funcs) max_items "LRU" ttl

/-- One entry of a per-callable store: `(ret, created_at, hit_count,
last_access_at)` as written by `wrapped_func` (lines 309-319); the stored
return value is abstracted to an identifier. -/
abbrev CacheEntry := Nat × Nat × Nat × Nat

/-- One per-callable store: the `collections.OrderedDict` mapping the
hexdigest cache key to its entry, in insertion order. -/
abbrev FuncStore := List (HexDigest × CacheEntry)

/-- Modelled from the spec: `state._memoize_cache` lives in
`panel/io/state.py`, which is not among the sources; per the spec it is
the process-wide table mapping each wrapped callable (identified by `id`)
to its own store.  `_HASH_MAP` (cache.py line 33) is a module global of
`cache.py` itself; it is carried alongside so that effects on both can be
compared. -/
structure PanelState where
  memoizeCache : List (Nat × FuncStore)
  hashMap : HashMemo
  deriving Repr

/-- `state._memoize_cache.get(func)` as performed by `wrapped_func` at
line 304. -/
def memoize_cache_get (s : PanelState) (func : Nat) : Option FuncStore :=
  s.memoizeCache.lookup func

/-- `clear_cache()` (cache.py lines 330-334): `state._memoize_cache.clear()`.
It empties the table of per-callable stores and touches nothing else; in
particular `_HASH_MAP` is not read or written. -/
def clear_cache (s : PanelState) : PanelState := ⟨[], s.hashMap⟩

/-- The object identities bound in the heap. -/
def heapIds (heap : Heap) : List Nat := heap.map Prod.fst

/-- How many heap identities are not yet on the hashing stack.  This is the
quantity that shrinks whenever the hasher descends into a container it has
not visited before, and it bounds the recursion depth. -/
def unseen (heap : Heap) (stack : List Nat) : Nat :=
  ((heapIds heap).filter (fun i => !(stack.contains i))).length

/-- Values built from the scalar types and (possibly cyclic) list/tuple
containers whose contents are present in the heap — the fragment of the
value universe for which the hasher has no error branch. -/
def simpleVal (heap : Heap) : PyVal → Bool
  | .intV _ _ => true
  | .boolV _ _ => true
  | .strV _ _ => true
  | .noneV _ => true
  | .bytesV _ _ => true
  | .tupleV i => (heapIds heap).contains i
  | .listV i => (heapIds heap).contains i
  | .objV _ _ _ _ => false

/-- Every heap cell contains only simple values. -/
def heapOK (heap : Heap) : Bool := heap.all (fun c => c.2.all (simpleVal heap))

/-- The length of the longest heap cell. -/
def maxCellLen (heap : Heap) : Nat := heap.foldr (fun c acc => max c.2.length acc) 0

/-- Per-container fuel allowance: tag string, cell contents and slack. -/
def heapC (heap : Heap) : Nat := maxCellLen heap + 3

def taskSimple (heap : Heap) : HashTask → Bool
  | .one v => simpleVal heap v
  | .many vs => vs.all (simpleVal heap)

def taskCost : HashTask → Nat
  | .one _ => 1
  | .many vs => vs.length + 1

/-- A sufficient fuel budget for a hashing work item. -/
def budget (heap : Heap) (stack : List Nat) (task : HashTask) : Nat :=
  unseen heap stack * heapC heap + taskCost task

theorem filter_len_le (l : List Nat) (p q : Nat → Bool) (h : ∀ x, p x = true → q x = true) :
    (l.filter p).length ≤ (l.filter q).length := by
  induction l with
  | nil => simp
  | cons x xs ih =>
    by_cases hp : p x = true
    · simp [List.filter, hp, h x hp]; omega
    · have hp2 : p x = false := by simp at hp; exact hp
      by_cases hq : q x = true
      · simp [List.filter, hp2, hq]; omega
      · have hq2 : q x = false := by simp at hq; exact hq
        simp [List.filter, hp2, hq2]; omega

theorem filter_len_lt (l : List Nat) (p q : Nat → Bool) (h : ∀ x, p x = true → q x = true)
    (a : Nat) (ha : a ∈ l) (hqa : q a = true) (hpa : p a = false) :
    (l.filter p).length < (l.filter q).length := by
  induction l with
  | nil => cases ha
  | cons x xs ih =>
    rcases List.mem_cons.mp ha with hx | hx
    · subst hx
      simp [List.filter, hpa, hqa]
      calc (xs.filter p).length ≤ (xs.filter q).length := filter_len_le xs p q h
        _ < (xs.filter q).length + 1 := by omega
    · have hlt := ih hx
      by_cases hp : p x = true
      · simp [List.filter, hp, h x hp]; omega
      · have hp2 : p x = false := by simp at hp; exact hp
        by_cases hq : q x = true
        · simp [List.filter, hp2, hq]; omega
        · have hq2 : q x = false := by simp at hq; exact hq
          simp [List.filter, hp2, hq2]; omega

/-- Growing the stack can only shrink the unseen count. -/
theorem unseen_mono (heap : Heap) (s1 s2 : List Nat) (h : s1 ⊆ s2) :
    unseen heap s2 ≤ unseen heap s1 := by
  unfold unseen
  apply filter_len_le
  intro x hx
  simp only [Bool.not_eq_true'] at hx ⊢
  rcases hcont : s1.contains x with _ | _
  · rfl
  · exact absurd (h (List.elem_iff.mp hcont)) (by simpa [List.elem_iff] using hx)

/-- Pushing an unvisited heap identity strictly shrinks the unseen count. -/
theorem unseen_push_lt (heap : Heap) (s : List Nat) (i : Nat)
    (hmem : i ∈ heapIds heap) (hni : s.contains i = false) :
    unseen heap (s ++ [i]) < unseen heap s := by
  unfold unseen
  refine filter_len_lt _ _ _ ?_ i hmem ?_ ?_
  · intro x hx
    simp only [Bool.not_eq_true'] at hx ⊢
    simp at hx ⊢
    intro hm
    exact hx.1 hm
  · simp only [Bool.not_eq_true']
    exact hni
  · simp

theorem lookup_some_of_mem_ids (heap : Heap) (i : Nat) (h : i ∈ heapIds heap) :
    ∃ its, heap.lookup i = some its := by
  induction heap with
  | nil => simp [heapIds] at h
  | cons c rest ih =>
    by_cases hc : i = c.1
    · exact ⟨c.2, by simp [List.lookup, hc]⟩
    · have : i ∈ heapIds rest := by
        simp [heapIds] at h ⊢
        rcases h with h | h
        · exact absurd h hc
        · exact h
      obtain ⟨its, hits⟩ := ih this
      have hbeq : (i == c.1) = false := by simpa using hc
      exact ⟨its, by simp [List.lookup, hits, hbeq]⟩

theorem mem_of_lookup_some (heap : Heap) (i : Nat) (its : List PyVal)
    (h : heap.lookup i = some its) : (i, its) ∈ heap := by
  induction heap with
  | nil => simp [List.lookup] at h
  | cons c rest ih =>
    by_cases hc : i = c.1
    · subst hc
      simp [List.lookup] at h
      subst h
      exact List.mem_cons_self _ _
    · have hbeq : (i == c.1) = false := by simpa using hc
      simp [List.lookup, hbeq] at h
      exact List.mem_cons_of_mem _ (ih h)

theorem cell_len_le_max (heap : Heap) (i : Nat) (its : List PyVal)
    (h : (i, its) ∈ heap) : its.length ≤ maxCellLen heap := by
  induction heap with
  | nil => cases h
  | cons c rest ih =>
    rcases List.mem_cons.mp h with hx | hx
    · subst hx
      simp [maxCellLen]
    · have := ih hx
      simp [maxCellLen]
      right
      exact this

theorem cell_all_simple (heap : Heap) (i : Nat) (its : List PyVal)
    (hok : heapOK heap = true) (h : (i, its) ∈ heap) :
    its.all (simpleVal heap) = true := by
  unfold heapOK at hok
  exact List.all_eq_true.mp hok (i, its) h

/-- Fuel sufficiency (and stack monotonicity) for the hasher: on the
scalar/container fragment, with a well-formed heap, a budget of
`unseen * heapC + cost` levels of recursion always suffices, whatever the
current stack contents — in particular, on cyclic heaps.  The proof
mirrors the code: descending into an unvisited container pushes its
identity, strictly shrinking the unseen count, and the cycle check stops
any revisit. -/
theorem genHashAux_total : ∀ (f : Nat) (heap : Heap) (st : HState) (task : HashTask),
    heapOK heap = true → taskSimple heap task = true →
    budget heap st.stk.stackIds task + 1 ≤ f →
    ∃ out st2, genHashAux heap f [] st task = .ok (out, st2) ∧
      st.stk.stackIds ⊆ st2.stk.stackIds := by
  intro f
  induction f with
  | zero =>
    intro heap st task hok hts hbud
    exfalso
    omega
  | succ g IH =>
    intro heap st task hok hts hbud
    cases task with
    | many vs =>
      cases vs with
      | nil => exact ⟨[], st, by simp [genHashAux], fun _ hx => hx⟩
      | cons v rest =>
        have hsv : simpleVal heap v = true := by
          simp [taskSimple] at hts
          exact hts.1
        have hsrest : taskSimple heap (.many rest) = true := by
          simp [taskSimple] at hts ⊢
          exact hts.2
        have hbud1 : budget heap st.stk.stackIds (.one v) + 1 ≤ g := by
          simp only [budget, taskCost] at hbud ⊢
          simp only [List.length_cons] at hbud
          omega
        obtain ⟨h1, st1, e1, sub1⟩ := IH heap st (.one v) hok (by simpa [taskSimple] using hsv) hbud1
        have hmul : unseen heap st1.stk.stackIds * heapC heap ≤
            unseen heap st.stk.stackIds * heapC heap :=
          Nat.mul_le_mul_right _ (unseen_mono heap _ _ sub1)
        have hbud2 : budget heap st1.stk.stackIds (.many rest) + 1 ≤ g := by
          simp only [budget, taskCost] at hbud ⊢
          simp only [List.length_cons] at hbud
          omega
        obtain ⟨hs, st2, e2, sub2⟩ := IH heap st1 (.many rest) hok hsrest hbud2
        refine ⟨h1 ++ hs, st2, ?_, fun x hx => sub2 (sub1 hx)⟩
        simp [genHashAux, e1, e2]
    | one v =>
      rcases hmem : st.stk.mem v.oidOf with _ | _
      case true =>
        exact ⟨[_CYCLE_PLACEHOLDER], st, by simp [genHashAux, hmem], fun _ hx => hx⟩
      case false =>
      cases v with
      | intV i n =>
        simp only [PyVal.oidOf] at hmem
        refine ⟨[rawH (_int_to_bytes n)], ⟨st.stk.push i, st.nextId⟩, ?_, ?_⟩
        · simp [genHashAux, PyVal.oidOf, hmem, List.lookup]
        · simp only [_Stack.push]
          exact List.subset_append_left _ _
      | boolV i b =>
        simp only [PyVal.oidOf] at hmem
        refine ⟨[rawH (_int_to_bytes (if b then 1 else 0))], ⟨st.stk.push i, st.nextId⟩, ?_, ?_⟩
        · simp [genHashAux, PyVal.oidOf, hmem, List.lookup]
        · simp only [_Stack.push]
          exact List.subset_append_left _ _
      | strV i s =>
        simp only [PyVal.oidOf] at hmem
        refine ⟨[rawH (utf8Bytes s)], ⟨st.stk.push i, st.nextId⟩, ?_, ?_⟩
        · simp [genHashAux, PyVal.oidOf, hmem, List.lookup]
        · simp only [_Stack.push]
          exact List.subset_append_left _ _
      | noneV i =>
        simp only [PyVal.oidOf] at hmem
        refine ⟨[rawH [48]], ⟨st.stk.push i, st.nextId⟩, ?_, ?_⟩
        · simp [genHashAux, PyVal.oidOf, hmem, List.lookup]
        · simp only [_Stack.push]
          exact List.subset_append_left _ _
      | bytesV i bs =>
        simp only [PyVal.oidOf] at hmem
        refine ⟨[rawH bs], ⟨st.stk.push i, st.nextId⟩, ?_, ?_⟩
        · simp [genHashAux, PyVal.oidOf, hmem, List.lookup]
        · simp only [_Stack.push]
          exact List.subset_append_left _ _
      | objV i m q r =>
        simp [taskSimple, simpleVal] at hts
      | tupleV i =>
        simp only [PyVal.oidOf] at hmem
        have hsv : (heapIds heap).contains i = true := by
          simpa [taskSimple, simpleVal] using hts
        have himem : i ∈ heapIds heap := List.elem_iff.mp hsv
        obtain ⟨items, hlook⟩ := lookup_some_of_mem_ids heap i himem
        have hcellmem := mem_of_lookup_some heap i items hlook
        have hclen : items.length ≤ maxCellLen heap := cell_len_le_max heap i items hcellmem
        have hcsimple : items.all (simpleVal heap) = true := cell_all_simple heap i items hok hcellmem
        have hpush : unseen heap (st.stk.stackIds ++ [i]) < unseen heap st.stk.stackIds :=
          unseen_push_lt heap _ i himem hmem
        have hmul1 : (unseen heap (st.stk.stackIds ++ [i]) + 1) * heapC heap ≤
            unseen heap st.stk.stackIds * heapC heap :=
          Nat.mul_le_mul_right _ hpush
        rw [Nat.succ_mul] at hmul1
        have hC : heapC heap = maxCellLen heap + 3 := rfl
        have hbudt : budget heap (st.stk.stackIds ++ [i])
            (.one (.strV st.nextId "__tuple")) + 1 ≤ g := by
          simp only [budget, taskCost] at hbud ⊢
          omega
        obtain ⟨th, st3, etag, subtag⟩ := IH heap ⟨⟨st.stk.stackIds ++ [i]⟩, st.nextId + 1⟩
          (.one (.strV st.nextId "__tuple")) hok (by simp [taskSimple, simpleVal]) hbudt
        have hmul3 : unseen heap st3.stk.stackIds * heapC heap ≤
            unseen heap (st.stk.stackIds ++ [i]) * heapC heap :=
          Nat.mul_le_mul_right _ (unseen_mono heap _ _ subtag)
        have hbudi : budget heap st3.stk.stackIds (.many items) + 1 ≤ g := by
          simp only [budget, taskCost] at hbud ⊢
          omega
        obtain ⟨ihs, st4, eitems, subitems⟩ := IH heap st3 (.many items) hok
          (by simpa [taskSimple] using hcsimple) hbudi
        refine ⟨[md5H (th ++ ihs)], st4, ?_, ?_⟩
        · simp [genHashAux, PyVal.oidOf, hmem, List.lookup, hlook, _Stack.push, etag, eitems]
        · intro x hx
          exact subitems (subtag (List.mem_append_left _ hx))
      | listV i =>
        simp only [PyVal.oidOf] at hmem
        have hsv : (heapIds heap).contains i = true := by
          simpa [taskSimple, simpleVal] using hts
        have himem : i ∈ heapIds heap := List.elem_iff.mp hsv
        obtain ⟨items, hlook⟩ := lookup_some_of_mem_ids heap i himem
        have hcellmem := mem_of_lookup_some heap i items hlook
        have hclen : items.length ≤ maxCellLen heap := cell_len_le_max heap i items hcellmem
        have hcsimple : items.all (simpleVal heap) = true := cell_all_simple heap i items hok hcellmem
        have hpush : unseen heap (st.stk.stackIds ++ [i]) < unseen heap st.stk.stackIds :=
          unseen_push_lt heap _ i himem hmem
        have hmul1 : (unseen heap (st.stk.stackIds ++ [i]) + 1) * heapC heap ≤
            unseen heap st.stk.stackIds * heapC heap :=
          Nat.mul_le_mul_right _ hpush
        rw [Nat.succ_mul] at hmul1
        have hC : heapC heap = maxCellLen heap + 3 := rfl
        have hbudt : budget heap (st.stk.stackIds ++ [i])
            (.one (.strV st.nextId "__list")) + 1 ≤ g := by
          simp only [budget, taskCost] at hbud ⊢
          omega
        obtain ⟨th, st3, etag, subtag⟩ := IH heap ⟨⟨st.stk.stackIds ++ [i]⟩, st.nextId + 1⟩
          (.one (.strV st.nextId "__list")) hok (by simp [taskSimple, simpleVal]) hbudt
        have hmul3 : unseen heap st3.stk.stackIds * heapC heap ≤
            unseen heap (st.stk.stackIds ++ [i]) * heapC heap :=
          Nat.mul_le_mul_right _ (unseen_mono heap _ _ subtag)
        have hbudi : budget heap st3.stk.stackIds (.many items) + 1 ≤ g := by
          simp only [budget, taskCost] at hbud ⊢
          omega
        obtain ⟨ihs, st4, eitems, subitems⟩ := IH heap st3 (.many items) hok
          (by simpa [taskSimple] using hcsimple) hbudi
        refine ⟨[md5H (th ++ ihs)], st4, ?_, ?_⟩
        · simp [genHashAux, PyVal.oidOf, hmem, List.lookup, hlook, _Stack.push, etag, eitems]
        · intro x hx
          exact subitems (subtag (List.mem_append_left _ hx))

/-- A `_generate_hash` call produces exactly one digest (the `.many` loop
results are only ever consumed inside container or reduce digests). -/
theorem genHashAux_one_len : ∀ (f : Nat) (heap : Heap) (hf : HashFuncs) (st : HState)
    (v : PyVal) (out : List HBytes) (st2 : HState),
    genHashAux heap f hf st (.one v) = .ok (out, st2) → out.length = 1 := by
  intro f
  induction f with
  | zero =>
    intro heap hf st v out st2 he
    simp [genHashAux] at he
  | succ g IH =>
    intro heap hf st v out st2 he
    simp only [genHashAux] at he
    repeat' split at he
    all_goals try exact Except.noConfusion he
    all_goals try (cases he; rfl)
    all_goals exact IH _ _ _ _ _ _ he

/-- Name resolution fact: `hash_args` is unbound in `compute_hash`. -/
theorem resolve_hash_args :
    resolveFree computeHashLocals "hash_args" = .error (.nameError "hash_args") := by decide

/-- Name resolution fact: `hash_kwargs` is unbound in `compute_hash`. -/
theorem resolve_hash_kwargs :
    resolveFree computeHashLocals "hash_kwargs" = .error (.nameError "hash_kwargs") := by decide

/-- Name resolution fact: `func_cache` is unbound in `_cleanup_cache`. -/
theorem resolve_func_cache :
    resolveFree cleanupCacheLocals "func_cache" = .error (.nameError "func_cache") := by decide

/-- C1: the claim asserts that `compute_hash(f, *args, **kwargs)` returns a
deterministic hex digest of the *current call's* arguments.  In the code,
however, the digest is computed from `hash_args`, `hash_kwargs` and
`hash_funcs` — names that are unbound in `compute_hash`'s scope — so any
call with at least one positional argument raises
`NameError: name 'hash_args' is not defined` (and any call with only
keyword arguments raises the analogous error for `hash_kwargs`) instead
of returning a digest. -/
theorem c1_compute_hash_unbound_argument_names :
    ∀ (heap : Heap) (hm : HashMemo) (func : Nat) (args : List PyVal)
      (kwargs : List (String × PyVal)),
      (args ≠ [] → compute_hash heap hm func args kwargs = .error (.nameError "hash_args")) ∧
      (args = [] → kwargs ≠ [] →
        compute_hash heap hm func args kwargs = .error (.nameError "hash_kwargs")) := by
  intro heap hm func args kwargs
  constructor
  · intro hargs
    have hne : args.isEmpty = false := by
      cases args with
      | nil => exact absurd rfl hargs
      | cons a as => rfl
    simp [compute_hash, _key, KeyVal.isIndet, hne, resolve_hash_args]
  · intro hargs hkw
    subst hargs
    have hne : kwargs.isEmpty = false := by
      cases kwargs with
      | nil => exact absurd rfl hkw
      | cons a as => rfl
    simp [compute_hash, _key, KeyVal.isIndet, hne, resolve_hash_kwargs]

/-- C1 witness: a call with one positional argument, and a call with one
keyword argument, both fail with the respective `NameError`. -/
theorem c1_compute_hash_unbound_argument_names_witness :
    compute_hash [] [] 0 [PyVal.intV 3 3] [] = .error (.nameError "hash_args") ∧
    compute_hash [] [] 0 [] [("x", PyVal.intV 3 3)] = .error (.nameError "hash_kwargs") :=
  ⟨(c1_compute_hash_unbound_argument_names [] [] 0 [PyVal.intV 3 3] []).1 (by decide),
   (c1_compute_hash_unbound_argument_names [] [] 0 [] [("x", PyVal.intV 3 3)]).2 rfl (by decide)⟩

/-- C2: the claim asserts FIFO eviction (with `max_items=2`, distinct keys
A, B, C leave exactly B and C cached).  In the code, any put at capacity
reaches `_cleanup_cache`, whose body refers to `func_cache` (and `policy`)
— neither a parameter nor a module global nor a builtin — so the third
call raises `NameError` instead of evicting the first key; nothing is ever
evicted.  (Independently, `wrapped_func` itself cannot run at all: line
307 of cache.py, `else hash_value in func_cache:`, is a syntax error.) -/
theorem c2_fifo_eviction_raises_name_error :
    ∀ time : Nat, _cleanup_cache () 2 none time = .error (.nameError "func_cache") := by
  intro time
  simp [_cleanup_cache, resolve_func_cache]

/-- C3: the claim asserts LRU eviction (evict the entry with the largest
`now - last_access_at`).  The eviction routine raises `NameError` for
every configuration before the policy string is even read, because its
body's first expression evaluates the unbound name `func_cache`; on top
of that the LRU branch's generator expression reads `key` (unassigned at
that point) instead of the bound variable `k`, and selects index `[0]` of
the list sorted by ascending `time - t`, i.e. the *most* recently used
entry. -/
theorem c3_lru_eviction_raises_name_error :
    ∀ (max_items time : Nat) (ttl : Option Nat),
      _cleanup_cache () max_items ttl time = .error (.nameError "func_cache") := by
  intro max_items time ttl
  simp [_cleanup_cache, resolve_func_cache]

/-- C4: the claim asserts that with a `ttl` configured every put sweeps
expired entries, regardless of `max_items`.  The sweep loop lives at the
end of `_cleanup_cache`, which raises `NameError` (unbound `func_cache`)
before reaching it; moreover the only call site (line 315) is guarded by
`if max_items is not None:`, so with `ttl` set and `max_items` unset the
sweep would not even be attempted. -/
theorem c4_ttl_sweep_raises_name_error :
    ∀ time : Nat, _cleanup_cache () 2 (some 1) time = .error (.nameError "func_cache") := by
  intro time
  simp [_cleanup_cache, resolve_func_cache]

/-- C5: hashing a value whose identity is already in the current hash
context returns the fixed cycle-placeholder digest without recursing, and
on the scalar/container fragment (which includes every self-referential
container) a top-level hash computation with the computable fuel budget
`unseen * heapC + 2` terminates and returns a digest without raising —
the cycle check bounds the recursion. -/
theorem c5_cycle_placeholder_and_bounded_recursion :
    (∀ (heap : Heap) (hf : HashFuncs) (f : Nat) (st : HState) (v : PyVal),
        st.stk.mem v.oidOf = true →
        _generate_hash heap (f+1) hf st v = .ok (_CYCLE_PLACEHOLDER, st)) ∧
    (∀ (heap : Heap) (st : HState) (v : PyVal) (f : Nat),
        heapOK heap = true → simpleVal heap v = true →
        budget heap st.stk.stackIds (.one v) + 1 ≤ f →
        ∃ b st2, _generate_hash heap f [] st v = .ok (b, st2)) := by
  constructor
  · intro heap hf f st v hmem
    simp [_generate_hash, genHashAux, hmem]
  · intro heap st v f hok hsv hbud
    obtain ⟨out, st2, he, _⟩ :=
      genHashAux_total f heap st (.one v) hok (by simpa [taskSimple] using hsv) hbud
    have hlen := genHashAux_one_len f heap [] st v out st2 he
    rcases out with _ | ⟨b, rest⟩
    · simp at hlen
    · rcases rest with _ | ⟨c, rest2⟩
      · exact ⟨b, st2, by simp [_generate_hash, he]⟩
      · simp at hlen

/-- The canonical self-referential container: a list that contains itself
(`l = []; l.append(l)`), at identity 0. -/
def cyclicHeap : Heap := [(0, [PyVal.listV 0])]

/-- C5 witness: on the self-referential list, a revisit returns the cycle
placeholder, and a fresh top-level hash computation terminates with a
digest. -/
theorem c5_cycle_placeholder_and_bounded_recursion_witness :
    (_generate_hash cyclicHeap 6 [] ⟨⟨[0]⟩, 50⟩ (.listV 0) =
      .ok (_CYCLE_PLACEHOLDER, ⟨⟨[0]⟩, 50⟩)) ∧
    (∃ b st2, _generate_hash cyclicHeap 10 [] ⟨⟨[]⟩, 50⟩ (.listV 0) = .ok (b, st2)) := by
  constructor
  · exact c5_cycle_placeholder_and_bounded_recursion.1 cyclicHeap [] 5 ⟨⟨[0]⟩, 50⟩
      (.listV 0) (by decide)
  · exact c5_cycle_placeholder_and_bounded_recursion.2 cyclicHeap ⟨⟨[]⟩, 50⟩ (.listV 0) 10
      (by decide) (by decide) (by decide)

/-- C6: the claim asserts the hash context is scoped to one top-level
computation — every pushed identity is removed before the call returns,
so the context is empty at the start of each top-level computation.  In
the code nothing ever pops: hashing the integer 5 (identity 1005) on a
fresh thread state leaves the identity on the persistent per-thread
stack, and an identical later top-level call then returns the cycle
placeholder instead of the integer's digest — an identity recorded by one
call is still present in a later one, and the two results differ. -/
theorem c6_hash_context_never_cleared :
    _generate_hash [] 5 [] ⟨⟨[]⟩, 100⟩ (.intV 1005 5) =
      .ok (rawH (_int_to_bytes 5), ⟨⟨[1005]⟩, 100⟩) ∧
    ([1005] : List Nat) ≠ [] ∧
    _generate_hash [] 5 [] ⟨⟨[1005]⟩, 100⟩ (.intV 1005 5) =
      .ok (_CYCLE_PLACEHOLDER, ⟨⟨[1005]⟩, 100⟩) ∧
    rawH (_int_to_bytes 5) ≠ _CYCLE_PLACEHOLDER :=
  ⟨rfl, by decide, rfl, by decide⟩

/-- C7 counterexample: the claim asserts the digest is derived from the
identity of the callable together with the argument digests, so that it
depends on which callable is passed.  Two *distinct* callables called
with the same (empty) arguments receive the *same* digest (the md5 of the
empty update sequence): the callable's identity never enters the hasher. -/
theorem c7_digest_same_for_distinct_callables :
    compute_hash [] [] 1 [] [] = .ok ([], []) ∧
    compute_hash [] [] 2 [] [] = .ok ([], []) ∧
    (1 : Nat) ≠ 2 := ⟨rfl, rfl, by decide⟩

/-- C7 amended: the result of `compute_hash` — digest or error — does not
depend on the callable at all.  The callable enters only the memo key
`(func, _key(args), _key(kwargs))`, and the memo branch is dead because
`_key` of the kwargs dict is always the `_INDETERMINATE` sentinel; the
hasher updates involve the arguments only (when they do not fail on the
unbound names of C1). -/
theorem c7_digest_independent_of_callable :
    ∀ (heap : Heap) (hm : HashMemo) (f g : Nat) (args : List PyVal)
      (kwargs : List (String × PyVal)),
      compute_hash heap hm f args kwargs = compute_hash heap hm g args kwargs := by
  intro heap hm f g args kwargs
  simp [compute_hash, _key, KeyVal.isIndet]

/-- C8 counterexample: the claim asserts an unrecognized eviction-policy
string raises a configuration failure at wrap time.  Applying `cache`
with the unrecognized policy string succeeds and returns the wrapped
callable — no validation of the policy happens at wrap time. -/
theorem c8_unrecognized_policy_accepted_at_wrap_time :
    cache (some 7) none (some 2) "NOT_A_POLICY" none =
      .wrapped ⟨7, [], some 2, "NOT_A_POLICY", none⟩ := rfl

/-- C8 amended: wrap-time application of `cache` never raises for any
policy string (it returns the wrapped callable, or, with the callable
omitted, the factory closure); the factory closure moreover drops the
policy argument, so applying it re-enters `cache` with the default
`'LRU'`. -/
theorem c8_no_wrap_time_policy_validation :
    ∀ (f : Nat) (hf : Option HashFuncs) (mi : Option Nat) (p : String) (ttl : Option Nat),
      cache (some f) hf mi p ttl = .wrapped ⟨f, hf.getD [], mi, p, ttl⟩ ∧
      cache none hf mi p ttl = .factory (hf.getD []) mi ttl ∧
      factory_apply (hf.getD []) mi ttl f = cache (some f) (some (hf.getD [])) mi "LRU" ttl := by
  intro f hf mi p ttl
  exact ⟨rfl, rfl, rfl⟩

/-- C9: whenever the user-supplied hash override registered for a value's
fully-qualified type raises, `_generate_hash` raises a hashing failure
(`ValueError`) that names that fully-qualified type and carries the
underlying error's type and message; it neither swallows the exception
nor falls back to an identity-based hash. -/
theorem c9_user_hash_override_error_propagates :
    ∀ (heap : Heap) (f : Nat) (hf : HashFuncs) (st : HState) (v : PyVal)
      (hfun : HashFunc) (et em : String),
      st.stk.mem v.oidOf = false →
      hf.lookup (_get_fqn v) = some hfun →
      hfun v = .error (et, em) →
      _generate_hash heap (f+1) hf st v = .error (.userHashError (_get_fqn v) et em) := by
  intro heap f hf st v hfun et em hmem hlook herr
  simp [_generate_hash, genHashAux, hmem, hlook, herr]

/-- A user override that always raises `RuntimeError("boom")`. -/
def boomOverride : HashFunc := fun _ => .error ("RuntimeError", "boom")

/-- C9 witness: hashing a `mymod.Widget` instance under an override for
`"mymod.Widget"` that raises produces the hashing failure naming the type
and the underlying error. -/
theorem c9_user_hash_override_error_propagates_witness :
    _generate_hash [] 4 [("mymod.Widget", boomOverride)] ⟨⟨[]⟩, 0⟩
      (.objV 7 "mymod" "Widget" true) =
      .error (.userHashError "mymod.Widget" "RuntimeError" "boom") := by
  have h := c9_user_hash_override_error_propagates [] 3 [("mymod.Widget", boomOverride)]
    ⟨⟨[]⟩, 0⟩ (.objV 7 "mymod" "Widget" true) boomOverride "RuntimeError" "boom"
    (by decide) rfl rfl
  simpa [_get_fqn] using h

/-- C10: `clear_cache()` empties the whole table of per-callable stores —
so a later lookup for any wrapped callable misses (forcing the wrapper
down its recompute path) — and leaves the global hash-value memo
`_HASH_MAP` unchanged. -/
theorem c10_clear_cache_empties_stores_preserves_hash_map :
    ∀ (s : PanelState) (func : Nat),
      (clear_cache s).memoizeCache = [] ∧
      memoize_cache_get (clear_cache s) func = none ∧
      (clear_cache s).hashMap = s.hashMap := by
  intro s func
  exact ⟨rfl, rfl, rfl⟩
